import Mathlib

/-!
Verification of the hyperfy client runtime core: the `App` entity lifecycle
(build generations, deferred event queue, listener dispatch, transform modes),
the `PlayerLocal` character controller's ground handling, the `ClientNetwork`
packet queue, the `ClientEditor` drop handler, and entity destruction.

Every definition is a shallow embedding translated from the JavaScript source
(`src/core/entities/PlayerLocal.js` which also holds the `App` class,
`src/core/entities/PlayerRemote.js`, `src/core/systems/ClientNetwork.js`,
`src/core/systems/ClientEditor.js`). Machine floats are modelled as rationals;
the sole trigonometric value (the ground angle) is carried as data alongside
the normal that produced it.
-/

namespace Hyperfy

/-! ## C1: the deferred event queue (`App.onEvent` and the drain loop in `App.build`) -/

/-- An entity event as handled by `App.onEvent(version, name, data, networkId)`:
the blueprint version it was emitted against, its event name, an opaque payload
and the originating network id. -/
structure AppEvent where
  version : Nat
  name : String
  payload : Nat
  networkId : Option Nat
deriving DecidableEq, Repr

/-- The event-related fields of an `App`: the `building` flag, the current
blueprint version, and the deferred-event queue `this.eventQueue`. -/
structure AppEventState where
  building : Bool
  blueprintVersion : Nat
  eventQueue : List AppEvent
deriving DecidableEq, Repr

/-- `App.onEvent(version, name, data, networkId)`: if `this.building` is set,
or the event's version exceeds the current blueprint version, the event is
pushed onto the deferred queue; otherwise it is emitted immediately. Returns
the new state together with the immediately fired event, if any. -/
def onEvent (s : AppEventState) (e : AppEvent) : AppEventState × Option AppEvent :=
  if s.building = true ∨ s.blueprintVersion < e.version then
    ({ s with eventQueue := s.eventQueue ++ [e] }, none)
  else
    (s, some e)

/-- The drain loop at the end of `App.build`: while the queue is non-empty,
look at the head; if its version exceeds the new blueprint version, stop
(it belongs to a future rebuild); otherwise shift it off and emit it.
Returns the list of fired events (in order) and the remaining queue. -/
def drainQueue (version : Nat) : List AppEvent → List AppEvent × List AppEvent
  | [] => ([], [])
  | e :: rest =>
    if version < e.version then ([], e :: rest)
    else
      let p := drainQueue version rest
      (e :: p.1, p.2)

/-! ## C2: build generations and supersession (`App.build`) -/

/-- An in-flight `App.build`: the generation `n` captured by `const n = ++this.n`
at its start, and the blueprint id read from `this.data.blueprint` at that
moment. The build is suspended at its asset fetches until it finishes. -/
structure PendingBuild where
  gen : Nat
  bp : Nat
deriving DecidableEq, Repr

/-- The build-generation state of one `App`: the per-entity counter `this.n`,
the in-flight builds (each suspended at its asset fetches), the generation and
blueprint of the currently active root (if any), the blueprint of the most
recent build request, and a log pairing each activation's generation with the
value of `this.n` at the moment it activated. -/
structure BuildState where
  counter : Nat
  pending : List PendingBuild
  activeGen : Option Nat
  activeBp : Option Nat
  requested : Option Nat
  commits : List (Nat × Nat)
deriving DecidableEq, Repr

/-- The state of an `App` before its first build. -/
def BuildState.start : BuildState := ⟨0, [], none, none, none, []⟩

/-- One scheduler step of the build machinery, translated from `App.build`:
`startBuild` is the synchronous head of `build()` (increment `this.n`, capture
the generation, read the requested blueprint) after which the build suspends at
its fetches; a suspended build resumes at the `if (this.n !== n) return` check
and either commits (the check passes: it unbuilds the previous version, sets
mode/root/blueprint and activates, all with no intervening suspension) or
aborts (the check fails: it returns without touching any entity state). -/
inductive BuildStep : BuildState → BuildState → Prop
  | startBuild (s : BuildState) (bp : Nat) :
      BuildStep s { s with
        counter := s.counter + 1,
        pending := ⟨s.counter + 1, bp⟩ :: s.pending,
        requested := some bp }
  | finishCommit (s : BuildState) (b : PendingBuild) (hmem : b ∈ s.pending)
      (hlatest : b.gen = s.counter) :
      BuildStep s { s with
        pending := s.pending.erase b,
        activeGen := some b.gen,
        activeBp := some b.bp,
        commits := (b.gen, s.counter) :: s.commits }
  | finishAbort (s : BuildState) (b : PendingBuild) (hmem : b ∈ s.pending)
      (hstale : b.gen ≠ s.counter) :
      BuildStep s { s with pending := s.pending.erase b }

/-- States of the build machinery reachable from the initial state by
interleaved build requests and completions. -/
inductive BuildReachable : BuildState → Prop
  | base : BuildReachable BuildState.start
  | step {s t : BuildState} : BuildReachable s → BuildStep s t → BuildReachable t

/-- The inductive invariant of the build machinery. -/
def BuildInv (s : BuildState) : Prop :=
  (∀ b ∈ s.pending, 1 ≤ b.gen ∧ b.gen ≤ s.counter) ∧
  (s.pending.map PendingBuild.gen).Nodup ∧
  (∀ p ∈ s.commits, p.1 = p.2) ∧
  (s.counter = 0 → s.pending = [] ∧ s.activeGen = none) ∧
  (0 < s.counter → ∃ bp, s.requested = some bp ∧
    ((⟨s.counter, bp⟩ : PendingBuild) ∈ s.pending ∨
      (s.activeGen = some s.counter ∧ s.activeBp = some bp))) ∧
  (∀ g, s.activeGen = some g → g ≤ s.counter) ∧
  (s.activeGen = some s.counter → ∀ b ∈ s.pending, b.gen ≠ s.counter)

/-! ## C3: listener dispatch (`App.emit` and the `App.fixedUpdate` call site) -/

/-- A registered script event listener: invoking it either completes normally
(we record its id) or throws. -/
inductive Listener where
  | ok (id : Nat)
  | throws (msg : String)
deriving DecidableEq, Repr

/-- `App.emit(name, a1, a2)`: iterate the listeners registered for the event in
order, invoking each callback. There is no try around an individual callback:
a throw propagates out of the loop. Returns the ids of the callbacks that ran
and the first uncaught error, if any. -/
def emitRun : List Listener → List Nat × Option String
  | [] => ([], none)
  | Listener.ok i :: rest =>
    let p := emitRun rest
    (i :: p.1, p.2)
  | Listener.throws m :: _ => ([], some m)

/-- Outcome of one `App` update-phase call. -/
inductive AppPhaseResult where
  | normal
  | crashed (msg : String)
deriving DecidableEq, Repr

/-- The `App.fixedUpdate(delta)` call site: for an ACTIVE app with a script,
`this.emit('fixedUpdate', delta)` runs inside a single try; an error escaping
the emit loop is caught there, logged, and routed to `this.crash()`. Returns
the ids of the listeners that ran and the phase outcome. -/
def fixedUpdateApp (active hasScript : Bool) (ls : List Listener) :
    List Nat × AppPhaseResult :=
  if active && hasScript then
    let p := emitRun ls
    match p.2 with
    | some m => (p.1, AppPhaseResult.crashed m)
    | none => (p.1, AppPhaseResult.normal)
  else ([], AppPhaseResult.normal)

/-! ## C4: mode determination and activation in `App.build` -/

/-- The `Modes` of the `App` lifecycle state machine. -/
inductive Mode where
  | active
  | moving
  | rotating
  | scaling
  | loading
  | crashed
deriving DecidableEq, Repr

/-- Mode determination in `App.build` (directly after the supersession check):
start from ACTIVE; if `this.data.mover` is non-null pick ROTATING/SCALING/MOVING
by `this.data.transformMode`; then, if `this.data.uploader` is non-null and
differs from the local network id, override the mode to LOADING. -/
def computeMode (mover uploader transformMode : Option String) (netId : String) : Mode :=
  let m :=
    match mover with
    | some _ =>
      match transformMode with
      | some t => if t = "rotate" then Mode.rotating else if t = "scale" then Mode.scaling else Mode.moving
      | none => Mode.moving
    | none => Mode.active
  match uploader with
  | some u => if u ≠ netId then Mode.loading else m
  | none => m

/-- Whether `App.build` activates the scene subtree with physics enabled:
`this.root.activate({ ..., physics: !this.data.mover })`. -/
def activatePhysics (mover : Option String) : Bool :=
  mover.isNone

/-- Modelled from the claim's wording, for comparison with `computeMode`: if the
mover equals the local network id, pick the mode by `transformMode`; otherwise,
if the uploader is set and is not the local network id, LOADING; else ACTIVE. -/
def computeModeClaim (mover uploader transformMode : Option String) (netId : String) : Mode :=
  if mover = some netId then
    match transformMode with
    | some t => if t = "rotate" then Mode.rotating else if t = "scale" then Mode.scaling else Mode.moving
    | none => Mode.moving
  else if uploader ≠ none ∧ uploader ≠ some netId then Mode.loading
  else Mode.active

/-! ## C5: the inbound packet queue (`ClientNetwork`) -/

/-- An inbound packet after `readPacket`: the handler method name and its
payload. -/
structure Packet where
  method : String
  payload : Nat
deriving DecidableEq, Repr

/-- `ClientNetwork.onPacket`: decode the frame and append it to `this.queue`.
Nothing is dispatched here. -/
def onPacket (queue : List Packet) (p : Packet) : List Packet :=
  queue ++ [p]

/-- `ClientNetwork.flush` (called from `preFixedUpdate`, i.e. before the fixed
phase of the frame): shift packets off the queue in order and invoke the
handler for each inside its own try; a throw is logged (`console.error`) and
the loop continues with the next packet. Returns, in processing order, each
packet paired with its handler outcome. -/
def flushRun (handle : Packet → Except String Nat) : List Packet → List (Packet × Except String Nat)
  | [] => []
  | p :: rest => (p, handle p) :: flushRun handle rest

/-! ## C6: ground sweep, slope handling and velocity shaping (`PlayerLocal.fixedUpdate`) -/

/-- A three-component vector with rational coordinates (machine floats are
modelled as rationals). -/
structure Vec3 where
  x : ℚ
  y : ℚ
  z : ℚ
deriving DecidableEq, Repr

def Vec3.add (a b : Vec3) : Vec3 := ⟨a.x + b.x, a.y + b.y, a.z + b.z⟩

def Vec3.sub (a b : Vec3) : Vec3 := ⟨a.x - b.x, a.y - b.y, a.z - b.z⟩

def Vec3.smul (c : ℚ) (a : Vec3) : Vec3 := ⟨c * a.x, c * a.y, c * a.z⟩

def Vec3.dot (a b : Vec3) : ℚ := a.x * b.x + a.y * b.y + a.z * b.z

/-- The constant `UP = new THREE.Vector3(0, 1, 0)`. -/
def upVec : Vec3 := ⟨0, 1, 0⟩

/-- The result of the downward ground sweep: the surface normal, together with
the value `UP.angleTo(sweepHit.normal) * RAD2DEG` that the code computes from
it (the trigonometry is carried as data; every later use only compares this
number with 60). -/
structure SweepHit where
  normal : Vec3
  angleDeg : ℚ
deriving DecidableEq, Repr

/-- The grounding fields of `PlayerLocal` as written by one physics step. -/
structure GroundState where
  grounded : Bool
  justLeftGround : Bool
  groundNormal : Vec3
  groundAngle : ℚ
  slipping : Bool
deriving DecidableEq, Repr

/-- The grounded-info and steep-slope blocks of `PlayerLocal.fixedUpdate`
(lines 351-373): a sweep hit grounds the player and records the normal and its
angle; no hit ungrounds (remembering whether we just left the ground); then, if
grounded on a surface steeper than 60 degrees, unground, reset the normal to
straight up and the angle to 0, and set `slipping`; otherwise clear `slipping`.
No later statement of the step reassigns these fields. -/
def updateGround (prevGrounded : Bool) (sweepHit : Option SweepHit) : GroundState :=
  let s :=
    match sweepHit with
    | some hit => GroundState.mk true false hit.normal hit.angleDeg false
    | none => GroundState.mk false prevGrounded upVec 0 false
  if s.grounded = true ∧ 60 < s.groundAngle then
    GroundState.mk false false upVec 0 true
  else
    { s with slipping := false }

/-- The velocity-shaping block of `PlayerLocal.fixedUpdate` (lines 449-474):
split the velocity into components parallel and perpendicular to the ground
normal and apply the drag `10 * delta` to the parallel part; if grounded and
not jumping, cancel the component along the ground normal; if we just walked
off an edge without jumping, set the vertical velocity to -5; finally, if
slipping, subtract 0.5 from the vertical velocity. -/
def shapeVelocity (velocity groundNormal : Vec3) (delta : ℚ)
    (grounded jumping justLeftGround slipping : Bool) : Vec3 :=
  let dragCoeff := 10 * delta
  let perpComponent := Vec3.smul (Vec3.dot velocity groundNormal) groundNormal
  let parallelComponent := Vec3.smul (1 - dragCoeff) (Vec3.sub velocity perpComponent)
  let vel := Vec3.add parallelComponent perpComponent
  let vel :=
    if grounded = true ∧ jumping = false then
      Vec3.sub vel (Vec3.smul (Vec3.dot vel groundNormal) groundNormal)
    else vel
  let vel := if justLeftGround = true ∧ jumping = false then { vel with y := -5 } else vel
  let vel := if slipping = true then { vel with y := vel.y - 1/2 } else vel
  vel

/-! ## C7: `App.handleScale` -/

/-- `THREE.MathUtils.clamp(value, lo, hi)`, also the per-component behaviour of
`Vector3.clampScalar(lo, hi)`. -/
def clampQ (lo hi v : ℚ) : ℚ :=
  max lo (min hi v)

/-- `App.handleScale(delta)`: with ShiftLeft held, add the uniform delta
`-pointer.delta.y * delta * scaleSpeed` to all three axes (`addScalar`) and
clamp every axis to [0.1, 10] (`clampScalar`); without Shift, scale x by
pointer-X and y by -pointer-Y and clamp x and y individually — z is neither
scaled nor clamped in this branch. -/
def handleScale (shiftHeld : Bool) (pointerDeltaX pointerDeltaY delta : ℚ) (s : Vec3) : Vec3 :=
  let scaleSpeed : ℚ := 1
  if shiftHeld then
    let d := -pointerDeltaY * delta * scaleSpeed
    let t := Vec3.mk (s.x + d) (s.y + d) (s.z + d)
    Vec3.mk (clampQ (1/10) 10 t.x) (clampQ (1/10) 10 t.y) (clampQ (1/10) 10 t.z)
  else
    let tx := s.x + pointerDeltaX * delta * scaleSpeed
    let ty := s.y + -pointerDeltaY * delta * scaleSpeed
    Vec3.mk (clampQ (1/10) 10 tx) (clampQ (1/10) 10 ty) s.z

/-! ## C8: the drop handler (`ClientEditor.onDrop`) -/

/-- A file dropped onto the viewport: its name and its size in bytes. -/
structure DropFile where
  name : String
  size : Nat
deriving DecidableEq, Repr

/-- The externally visible outcome of one `onDrop` call: system chat messages
added locally, the number of blueprints registered, entities added and uploads
started, whether the avatar placement pane was opened, and whether the socket
was closed. -/
structure DropOutcome where
  chatBodies : List String
  blueprintsRegistered : Nat
  entitiesAdded : Nat
  uploadsStarted : Nat
  avatarPaneOpened : Bool
  socketClosed : Bool
deriving DecidableEq, Repr

/-- `file.name.split('.').pop().toLowerCase()`. -/
def fileExt (nm : String) : String :=
  ((nm.splitOn ".").getLastD "").toLower

/-- The no-op outcome. -/
def emptyDrop : DropOutcome := ⟨[], 0, 0, 0, false, false⟩

/-- `ClientEditor.onDrop`: without the admin/builder role, or without a file,
do nothing; if the file exceeds `MAX_UPLOAD_SIZE * 1024 * 1024` bytes, add one
local system chat message naming the limit and return before any blueprint or
entity work; otherwise dispatch on the extension: `glb` runs `addModel` (one
blueprint registered, one app entity added with mover and uploader set to self,
one upload started), `vrm` runs `addAvatar` (the avatar pane opens; blueprints
are only minted later from its callbacks). The socket is never touched. -/
def onDrop (canDrop : Bool) (file : Option DropFile) (maxUploadMB : Nat) : DropOutcome :=
  if canDrop = false then emptyDrop
  else
    match file with
    | none => emptyDrop
    | some f =>
      let maxSize := maxUploadMB * 1024 * 1024
      if maxSize < f.size then
        { emptyDrop with
          chatBodies := ["File size too large (>" ++ toString maxUploadMB ++ "mb)"] }
      else
        let ext := fileExt f.name
        if ext = "glb" then { emptyDrop with blueprintsRegistered := 1, entitiesAdded := 1, uploadsStarted := 1 }
        else if ext = "vrm" then { emptyDrop with avatarPaneOpened := true }
        else emptyDrop

/-! ## C9: `App.modify` -/

/-- The fields of `this.data` touched by `App.modify`. Arrays are lists of
rationals; `uploader`, `mover` and `transformMode` are nullable strings. -/
structure AppData where
  blueprint : Nat
  uploader : Option String
  mover : Option String
  transformMode : Option String
  position : List ℚ
  quaternion : List ℚ
  scale : Option (List ℚ)
  state : Nat
deriving DecidableEq, Repr

/-- A partial `entityModified` record: a field is `some v` exactly when
`data.hasOwnProperty(field)` holds, in which case `v` is the (possibly null)
new value. -/
structure UpdateData where
  blueprint : Option Nat
  uploader : Option (Option String)
  mover : Option (Option String)
  transformMode : Option (Option String)
  position : Option (List ℚ)
  quaternion : Option (List ℚ)
  scale : Option (List ℚ)
  state : Option Nat
deriving DecidableEq, Repr

/-- What one `App.modify(data)` call does: the new `this.data`, the targets
pushed to the position and quaternion interpolators, and whether `build()` was
triggered at the end. -/
structure ModifyResult where
  data : AppData
  pushedPos : Option (List ℚ)
  pushedQuat : Option (List ℚ)
  rebuild : Bool
deriving DecidableEq, Repr

/-- `App.modify(data)`, field by field in source order: `blueprint`,
`uploader`, `mover`, `transformMode` and `state` update the data record and set
the rebuild flag; `position` and `quaternion` update the data record and push
an interpolator target; `scale` only updates the data record. At the end,
`build()` runs iff the rebuild flag was set. -/
def modifyApp (d : AppData) (u : UpdateData) : ModifyResult :=
  let rebuild := false
  let d := match u.blueprint with | some b => { d with blueprint := b } | none => d
  let rebuild := rebuild || u.blueprint.isSome
  let d := match u.uploader with | some v => { d with uploader := v } | none => d
  let rebuild := rebuild || u.uploader.isSome
  let d := match u.mover with | some v => { d with mover := v } | none => d
  let rebuild := rebuild || u.mover.isSome
  let d := match u.transformMode with | some v => { d with transformMode := v } | none => d
  let rebuild := rebuild || u.transformMode.isSome
  let d := match u.position with | some p => { d with position := p } | none => d
  let d := match u.quaternion with | some q => { d with quaternion := q } | none => d
  let d := match u.scale with | some sc => { d with scale := some sc } | none => d
  let d := match u.state with | some st => { d with state := st } | none => d
  let rebuild := rebuild || u.state.isSome
  ⟨d, u.position, u.quaternion, rebuild⟩

/-! ## C10: `App.destroy` and `PlayerRemote.destroy` -/

/-- The destruction-relevant state of an entity: its `dead` flag, its id, and
whether it is still present in `world.entities`. -/
structure DestroyableState where
  dead : Bool
  id : Nat
  inStore : Bool
deriving DecidableEq, Repr

/-- The externally visible effects of one `destroy` call: whether the teardown
ran (unbuild for `App`; deactivation plus the `leave` event for
`PlayerRemote`), whether the entity was removed from the store, and the
`entityRemoved` packets sent (carrying the entity id). -/
structure DestroyEffects where
  toreDown : Bool
  removedFromStore : Bool
  packets : List Nat
deriving DecidableEq, Repr

/-- The effects of a destroy call that hit the `if (this.dead) return` guard. -/
def noDestroyEffects : DestroyEffects := ⟨false, false, []⟩

/-- `App.destroy(local)`: return immediately when already dead; otherwise set
`dead`, run `unbuild()`, remove the entity from `world.entities`, and, when
`local` is set, send one `entityRemoved` packet. `PlayerRemote.destroy(local)`
has the same guard and the same store/packet behaviour (its teardown
deactivates the base, clears the avatar and emits the `leave` event). -/
def destroyEntity (s : DestroyableState) (isLocal : Bool) : DestroyableState × DestroyEffects :=
  if s.dead = true then (s, noDestroyEffects)
  else
    ({ s with dead := true, inStore := false },
      ⟨true, true, if isLocal then [s.id] else []⟩)

/-! ## Theorems -/

/-- Helper: `drainQueue` fires exactly the longest prefix of the queue whose
versions do not exceed the blueprint version, and keeps the rest. -/
theorem drainQueue_eq_takeWhile (v : Nat) (q : List AppEvent) :
    drainQueue v q =
      (q.takeWhile (fun e => decide (e.version ≤ v)),
        q.dropWhile (fun e => decide (e.version ≤ v))) := by
  induction q with
  | nil => rfl
  | cons e rest ih =>
    by_cases h : v < e.version
    · simp [drainQueue, h, List.takeWhile, List.dropWhile, Nat.not_le.mpr h]
    · simp [drainQueue, h, List.takeWhile, List.dropWhile, Nat.le_of_not_lt h, ih]

/-- C1 counterexample. The claim says events from versions older than the
current blueprint version are silently discarded, so that every event still in
the queue at dequeue time has `version ≥ blueprint.version`. In the code,
draining at blueprint version 5 FIRES a queued version-3 event (first
conjunct), and when a version-7 event heads the queue the drain stops there,
leaving the version-3 event behind it in the queue with 3 < 5 (second and
third conjuncts). -/
theorem c1_counterexample :
    (drainQueue 5 [⟨3, "tick", 0, none⟩]).1 = [⟨3, "tick", 0, none⟩] ∧
    (drainQueue 5 [⟨7, "tick", 0, none⟩, ⟨3, "tick", 0, none⟩]).2 =
      [⟨7, "tick", 0, none⟩, ⟨3, "tick", 0, none⟩] ∧
    (3 : Nat) < 5 := by
  refine ⟨?_, ?_, ?_⟩ <;> decide

/-- C1 (amended): while `building == true`, `onEvent` appends the event to the
deferred queue and fires nothing; when not building, an event whose version
exceeds the current blueprint version is likewise queued (kept pending across
builds) while an event whose version is at most the blueprint version —
including versions strictly older — fires immediately rather than being
discarded. At dequeue time the drain fires, in order, exactly the longest
prefix of queued events with `version ≤ blueprint.version` (older ones
included) and stops at the first future-version event, keeping it and
everything behind it. -/
theorem c1_deferred_event_queue (s : AppEventState) (e : AppEvent) (v : Nat)
    (q : List AppEvent) :
    (s.building = true →
      onEvent s e = ({ s with eventQueue := s.eventQueue ++ [e] }, none)) ∧
    (s.building = false → s.blueprintVersion < e.version →
      onEvent s e = ({ s with eventQueue := s.eventQueue ++ [e] }, none)) ∧
    (s.building = false → e.version ≤ s.blueprintVersion →
      onEvent s e = (s, some e)) ∧
    drainQueue v q =
      (q.takeWhile (fun x => decide (x.version ≤ v)),
        q.dropWhile (fun x => decide (x.version ≤ v))) := by
  refine ⟨?_, ?_, ?_, drainQueue_eq_takeWhile v q⟩
  · intro hb
    simp [onEvent, hb]
  · intro hb hv
    simp [onEvent, hb, hv]
  · intro hb hv
    simp [onEvent, hb, Nat.not_lt.mpr hv]

/-- Witness for `c1_deferred_event_queue` at a concrete input: an app that is
building defers an incoming event. -/
theorem c1_deferred_event_queue_witness :
    onEvent ⟨true, 5, []⟩ ⟨9, "ping", 0, none⟩ =
      (⟨true, 5, [⟨9, "ping", 0, none⟩]⟩, none) :=
  (c1_deferred_event_queue ⟨true, 5, []⟩ ⟨9, "ping", 0, none⟩ 0 []).1 rfl

/-- C3 counterexample. Two listeners are registered for the same event; the
first throws. `App.emit` runs no per-listener try, so the dispatch loop aborts:
the second listener (id 2) is never invoked — the invoked list is empty and
the throw escapes — refuting per-listener isolation. -/
theorem c3_counterexample :
    emitRun [Listener.throws "boom", Listener.ok 2] = ([], some "boom") := by
  decide

/-- C3 (amended): a throw inside an event listener propagates out of
`App.emit`, aborting the dispatch loop — the listeners registered after the
throwing one do not fire (first conjunct: any run of normally completing
listeners followed by a throwing one invokes exactly the ids before the throw
and surfaces the error). The catch lives one level up, at the update-phase call
sites: `App.fixedUpdate` wraps its single `emit` in a try, logs the error and
routes it to `crash()` (second conjunct). -/
theorem c3_listener_throw (ids : List Nat) (m : String) (rest ls : List Listener) :
    emitRun (ids.map Listener.ok ++ Listener.throws m :: rest) = (ids, some m) ∧
    ((emitRun ls).2 = some m →
      fixedUpdateApp true true ls = ((emitRun ls).1, AppPhaseResult.crashed m)) := by
  constructor
  · induction ids with
    | nil => rfl
    | cons i tl ih => simp [emitRun, ih]
  · intro herr
    simp [fixedUpdateApp, herr]

/-- Witness for `c3_listener_throw` at a concrete input: with a throwing
listener registered first, `fixedUpdate` of an active scripted app catches the
escaping throw and crashes the app, and the later listener never ran. -/
theorem c3_listener_throw_witness :
    fixedUpdateApp true true [Listener.throws "boom", Listener.ok 2] =
      ([], AppPhaseResult.crashed "boom") :=
  (c3_listener_throw [] "boom" [Listener.ok 2]
    [Listener.throws "boom", Listener.ok 2]).2 rfl

/-- C4 counterexample. First input: the mover is another client ("alice", local
id "bob") and no uploader — the code enters MOVING (any truthy mover) while
the claim's rule ("if mover equals the local network id") yields ACTIVE.
Second input: the local client is the mover but another client is the
uploader — the code's LOADING override wins, while the claim's rule yields
MOVING. -/
theorem c4_counterexample :
    computeMode (some "alice") none none "bob" = Mode.moving ∧
    computeModeClaim (some "alice") none none "bob" = Mode.active ∧
    computeMode (some "bob") (some "alice") none "bob" = Mode.loading ∧
    computeModeClaim (some "bob") (some "alice") none "bob" = Mode.moving := by
  refine ⟨?_, ?_, ?_, ?_⟩ <;> decide

/-- C4 (amended): the mode after a completed build is LOADING whenever the
uploader is set and is not the local network id (this overrides everything
else); otherwise any non-null mover — not only the local client — selects
ROTATING, SCALING or MOVING by `transformMode`; otherwise the mode is ACTIVE.
The scene subtree is activated with physics enabled iff `data.mover` is null. -/
theorem c4_mode_determination (mover uploader tm : Option String) (netId : String) :
    (∀ u, uploader = some u → u ≠ netId →
      computeMode mover uploader tm netId = Mode.loading) ∧
    ((uploader = none ∨ uploader = some netId) → mover = none →
      computeMode mover uploader tm netId = Mode.active) ∧
    (∀ mv, (uploader = none ∨ uploader = some netId) → mover = some mv →
      computeMode mover uploader tm netId =
        (if tm = some "rotate" then Mode.rotating
          else if tm = some "scale" then Mode.scaling
          else Mode.moving)) ∧
    (activatePhysics mover = true ↔ mover = none) := by
  refine ⟨?_, ?_, ?_, ?_⟩
  · intro u hu hne
    simp [computeMode, hu, hne]
  · intro hup hmv
    rcases hup with h | h <;> simp [computeMode, h, hmv]
  · intro mv hup hmv
    rcases hup with h | h <;>
      · subst hmv
        cases tm with
        | none => simp [computeMode, h]
        | some t =>
          by_cases hr : t = "rotate"
          · simp [computeMode, h, hr]
          · by_cases hs : t = "scale" <;> simp [computeMode, h, hr, hs]
  · cases mover <;> simp [activatePhysics]

/-- Witness for `c4_mode_determination` at a concrete input: a remote uploader
forces LOADING even though the local client is the mover. -/
theorem c4_mode_determination_witness :
    computeMode (some "bob") (some "alice") none "bob" = Mode.loading :=
  (c4_mode_determination (some "bob") (some "alice") none "bob").1 "alice" rfl
    (by decide)

/-- C5: inbound packets are only appended to the queue on arrival
(`onPacket` dispatches nothing — second conjunct), dispatch happens solely
when `flush` drains the queue from `preFixedUpdate`, before the fixed-update
phase, and the flush attempts every queued packet in arrival order — the
sequence of packets handed to handlers is exactly the queue (first conjunct),
independent of the handler, so a handler that throws on one packet does not
prevent later-arriving packets in the same flush from being processed (its
error is caught per-packet and the loop continues). The third conjunct is the
FIFO law connecting arrival to flush order. -/
theorem c5_packet_queue (handle : Packet → Except String Nat) (q : List Packet)
    (p : Packet) :
    (flushRun handle q).map Prod.fst = q ∧
    onPacket q p = q ++ [p] ∧
    flushRun handle (q ++ [p]) = flushRun handle q ++ [(p, handle p)] := by
  refine ⟨?_, rfl, ?_⟩
  · induction q with
    | nil => rfl
    | cons a tl ih => simp [flushRun, ih]
  · induction q with
    | nil => rfl
    | cons a tl ih => simp [flushRun, ih]

/-- C6: when the downward ground sweep hits a surface whose computed angle to
vertical exceeds 60 degrees, the grounded-info portion of the physics step ends
with `grounded = false`, `slipping = true`, the ground normal reset to straight
up and the ground angle reset to 0 (no later statement of the step reassigns
these fields); and whenever `slipping` is true, the velocity-shaping portion
subtracts 0.5 from the vertical velocity it would otherwise produce, leaving
the horizontal components unchanged, so the step never increases the vertical
velocity relative to the non-slipping outcome. -/
theorem c6_steep_slope (prev : Bool) (hit : SweepHit) (hangle : 60 < hit.angleDeg) :
    updateGround prev (some hit) = GroundState.mk false false upVec 0 true ∧
    ∀ (v n : Vec3) (d : ℚ) (g j jl : Bool),
      shapeVelocity v n d g j jl true =
        { shapeVelocity v n d g j jl false with
          y := (shapeVelocity v n d g j jl false).y - 1/2 } := by
  constructor
  · simp [updateGround, hangle]
  · intro v n d g j jl
    rfl

/-- Witness for `c6_steep_slope` at a concrete input: a 61-degree surface
ungrounds the player and marks it slipping. -/
theorem c6_steep_slope_witness :
    updateGround false (some ⟨⟨0, 1, 0⟩, 61⟩) = GroundState.mk false false upVec 0 true :=
  (c6_steep_slope false ⟨⟨0, 1, 0⟩, 61⟩ (by norm_num)).1

/-- Helper: a value clamped to `[lo, hi]` lies in `[lo, hi]` when `lo ≤ hi`. -/
theorem clampQ_mem (lo hi v : ℚ) (h : lo ≤ hi) :
    lo ≤ clampQ lo hi v ∧ clampQ lo hi v ≤ hi :=
  ⟨le_max_left _ _, max_le h (min_le_left _ _)⟩

/-- C7 counterexample. A SCALING step without Shift on scale `(1, 1, 20)` with
a still pointer leaves the z axis at 20, which is outside `[0.1, 10]`: the
non-Shift branch scales and clamps only the x and y axes, so the claim that
after every such step each axis lies within `[0.1, 10]` fails. -/
theorem c7_counterexample :
    (handleScale false 0 0 1 ⟨1, 1, 20⟩).z = 20 ∧
    ¬((handleScale false 0 0 1 ⟨1, 1, 20⟩).z ≤ 10) := by
  refine ⟨rfl, ?_⟩
  intro h
  rw [show (handleScale false 0 0 1 ⟨1, 1, 20⟩).z = 20 from rfl] at h
  norm_num at h

/-- C7 (amended): with Shift held, pointer-Y scales all three axes by the same
uniform delta and every axis is clamped to `[0.1, 10]` (last conjunct exhibits
the common delta); without Shift, the x and y axes are scaled individually and
clamped to `[0.1, 10]`, while the z axis is left exactly as it was — neither
scaled nor clamped. Consequently every step leaves x and y within `[0.1, 10]`,
and all three axes are within `[0.1, 10]` whenever Shift is held (or the z
axis was already in range). -/
theorem c7_scale_clamp (shift : Bool) (dx dy delta : ℚ) (s : Vec3) :
    (1/10 ≤ (handleScale shift dx dy delta s).x ∧ (handleScale shift dx dy delta s).x ≤ 10) ∧
    (1/10 ≤ (handleScale shift dx dy delta s).y ∧ (handleScale shift dx dy delta s).y ≤ 10) ∧
    (shift = true →
      1/10 ≤ (handleScale shift dx dy delta s).z ∧ (handleScale shift dx dy delta s).z ≤ 10) ∧
    (shift = false → (handleScale shift dx dy delta s).z = s.z) ∧
    (shift = true → ∃ u, handleScale shift dx dy delta s =
      Vec3.mk (clampQ (1/10) 10 (s.x + u)) (clampQ (1/10) 10 (s.y + u))
        (clampQ (1/10) 10 (s.z + u))) := by
  have hr : (1/10 : ℚ) ≤ 10 := by norm_num
  cases shift with
  | true =>
    refine ⟨?_, ?_, ?_, ?_, ?_⟩
    · exact clampQ_mem _ _ _ hr
    · exact clampQ_mem _ _ _ hr
    · intro _
      exact clampQ_mem _ _ _ hr
    · intro h
      cases h
    · intro _
      exact ⟨-dy * delta * 1, rfl⟩
  | false =>
    refine ⟨?_, ?_, ?_, ?_, ?_⟩
    · exact clampQ_mem _ _ _ hr
    · exact clampQ_mem _ _ _ hr
    · intro h
      cases h
    · intro _
      rfl
    · intro h
      cases h

/-- Witness for `c7_scale_clamp` at a concrete input: a uniform (Shift) step on
an arbitrary scale yields axes within `[0.1, 10]`. -/
theorem c7_scale_clamp_witness :
    1/10 ≤ (handleScale true 0 3 1 ⟨1, 1, 20⟩).z ∧
      (handleScale true 0 3 1 ⟨1, 1, 20⟩).z ≤ 10 :=
  (c7_scale_clamp true 0 3 1 ⟨1, 1, 20⟩).2.2.1 rfl

/-- C8: a file dropped by an authoring client (admin/builder role) whose size
exceeds `PUBLIC_MAX_UPLOAD_SIZE` megabytes produces exactly one local system
chat message naming the size limit and nothing else: no blueprint is
registered, no entity is added, no upload starts, and the socket is not
closed. -/
theorem c8_oversize_upload (f : DropFile) (maxMB : Nat)
    (hsize : maxMB * 1024 * 1024 < f.size) :
    onDrop true (some f) maxMB =
      ⟨["File size too large (>" ++ toString maxMB ++ "mb)"], 0, 0, 0, false, false⟩ := by
  simp [onDrop, hsize, emptyDrop]

/-- Witness for `c8_oversize_upload` at a concrete input: a 200 MB drop against
the default 100 MB cap is rejected with only the chat notice. -/
theorem c8_oversize_upload_witness :
    onDrop true (some ⟨"scene.glb", 209715200⟩) 100 =
      ⟨["File size too large (>100mb)"], 0, 0, 0, false, false⟩ :=
  c8_oversize_upload ⟨"scene.glb", 209715200⟩ 100 (by norm_num)

/-- C9: `App.modify(data)` triggers a rebuild if and only if the update
contains at least one of the keys `blueprint`, `uploader`, `mover`,
`transformMode` or `state` (first conjunct). An update with none of those keys
— e.g. only `position`, `quaternion` and/or `scale` — causes no rebuild
(leaving the running script, its registered listeners, the mode and the scene
root untouched, since those change only through `build()`); it updates exactly
those fields of the stored data record and pushes the position and quaternion
values as new interpolator targets. -/
theorem c9_modify_rebuild (d : AppData) (u : UpdateData) :
    ((modifyApp d u).rebuild =
      (u.blueprint.isSome || u.uploader.isSome || u.mover.isSome ||
        u.transformMode.isSome || u.state.isSome)) ∧
    (u.blueprint = none → u.uploader = none → u.mover = none →
      u.transformMode = none → u.state = none →
      (modifyApp d u).rebuild = false ∧
      (modifyApp d u).pushedPos = u.position ∧
      (modifyApp d u).pushedQuat = u.quaternion ∧
      (modifyApp d u).data = { d with
        position := u.position.getD d.position,
        quaternion := u.quaternion.getD d.quaternion,
        scale := (u.scale.map some).getD d.scale }) := by
  obtain ⟨bp, up, mv, tm, pos, quat, sc, st⟩ := u
  constructor
  · cases bp <;> cases up <;> cases mv <;> cases tm <;> cases st <;> simp [modifyApp]
  · rintro rfl rfl rfl rfl rfl
    cases pos <;> cases quat <;> cases sc <;> simp [modifyApp]

/-- Witness for `c9_modify_rebuild` at a concrete input: an update carrying
only a position leaves the rebuild flag clear and pushes the interpolator
target. -/
theorem c9_modify_rebuild_witness :
    (modifyApp ⟨7, none, none, none, [0, 0, 0], [0, 0, 0, 1], none, 0⟩
        ⟨none, none, none, none, some [1, 2, 3], none, none, none⟩).rebuild = false ∧
    (modifyApp ⟨7, none, none, none, [0, 0, 0], [0, 0, 0, 1], none, 0⟩
        ⟨none, none, none, none, some [1, 2, 3], none, none, none⟩).pushedPos =
      some [1, 2, 3] := by
  have h := (c9_modify_rebuild ⟨7, none, none, none, [0, 0, 0], [0, 0, 0, 1], none, 0⟩
    ⟨none, none, none, none, some [1, 2, 3], none, none, none⟩).2 rfl rfl rfl rfl rfl
  exact ⟨h.1, h.2.1⟩

/-- C10: `destroy` is idempotent for both `App` and `PlayerRemote` (both share
the `dead` guard modelled by `destroyEntity`). A first call on a live entity
runs the teardown, removes the entity from the store, and — when called with
`local = true` — sends exactly one `entityRemoved` packet (none otherwise);
any subsequent `destroy` call on the resulting state, with either flag, leaves
the state unchanged, performs no removal and sends no packet. -/
theorem c10_destroy_idempotent (s : DestroyableState) (l1 l2 : Bool) :
    (s.dead = false →
      destroyEntity s l1 =
        ({ s with dead := true, inStore := false },
          ⟨true, true, if l1 then [s.id] else []⟩) ∧
      (destroyEntity s true).2.packets = [s.id]) ∧
    destroyEntity (destroyEntity s l1).1 l2 = ((destroyEntity s l1).1, noDestroyEffects) := by
  constructor
  · intro hd
    constructor
    · simp [destroyEntity, hd]
    · simp [destroyEntity, hd]
  · by_cases hd : s.dead = true <;> simp [destroyEntity, hd]

/-- Witness for `c10_destroy_idempotent` at a concrete input: destroying a live
entity with `local = true` sends one packet, and a second destroy is a no-op. -/
theorem c10_destroy_idempotent_witness :
    (destroyEntity ⟨false, 42, true⟩ true).2.packets = [42] ∧
    destroyEntity (destroyEntity ⟨false, 42, true⟩ true).1 false =
      ((destroyEntity ⟨false, 42, true⟩ true).1, noDestroyEffects) := by
  have h := c10_destroy_idempotent ⟨false, 42, true⟩ true false
  exact ⟨(h.1 rfl).2, h.2⟩

/-- The initial state satisfies the build invariant. -/
theorem buildInv_base : BuildInv BuildState.start := by
  refine ⟨?_, ?_, ?_, ?_, ?_, ?_, ?_⟩ <;> simp [BuildState.start]

/-- The build invariant is preserved by every step of the build machinery. -/
theorem buildInv_step {s t : BuildState} (hinv : BuildInv s) (hstep : BuildStep s t) :
    BuildInv t := by
  obtain ⟨h1, h2, h3, h4, h5, h6, h7⟩ := hinv
  cases hstep with
  | startBuild bp =>
    refine ⟨?_, ?_, h3, ?_, ?_, ?_, ?_⟩ <;> dsimp only
    · intro b hb
      rcases List.mem_cons.mp hb with rfl | hb
      · dsimp only
        omega
      · have := h1 b hb
        omega
    · rw [List.map_cons, List.nodup_cons]
      refine ⟨?_, h2⟩
      intro hmem
      obtain ⟨b, hb, hgen⟩ := List.mem_map.mp hmem
      have := (h1 b hb).2
      dsimp only at hgen
      omega
    · intro h
      exact absurd h (Nat.succ_ne_zero _)
    · intro _
      exact ⟨bp, rfl, Or.inl (List.mem_cons_self _ _)⟩
    · intro g hg
      exact Nat.le_succ_of_le (h6 g hg)
    · intro hact b hb
      have := h6 _ hact
      omega
  | finishCommit b hmem hlatest =>
    have hpos : 0 < s.counter := by
      have := (h1 b hmem).1
      have := (h1 b hmem).2
      omega
    obtain ⟨bp, hreq, hcase⟩ := h5 hpos
    have hb_eq : b = ⟨s.counter, bp⟩ := by
      rcases hcase with hpend | ⟨hact, _⟩
      · exact List.inj_on_of_nodup_map h2 hmem hpend (by rw [hlatest])
      · exact absurd hlatest (h7 hact b hmem)
    refine ⟨?_, ?_, ?_, ?_, ?_, ?_, ?_⟩ <;> dsimp only
    · intro x hx
      exact h1 x (List.mem_of_mem_erase hx)
    · exact ((List.erase_sublist b s.pending).map PendingBuild.gen).nodup h2
    · intro p hp
      rcases List.mem_cons.mp hp with rfl | hp
      · exact hlatest
      · exact h3 p hp
    · intro h
      exact absurd h (by omega)
    · intro _
      refine ⟨bp, hreq, Or.inr ⟨?_, ?_⟩⟩
      · rw [hlatest]
      · rw [hb_eq]
    · intro g hg
      have hgeq := Option.some.inj hg
      omega
    · intro _ x hx
      have hnodup : s.pending.Nodup := List.Nodup.of_map _ h2
      obtain ⟨hxne, hxmem⟩ := hnodup.mem_erase_iff.mp hx
      intro hxg
      exact hxne (List.inj_on_of_nodup_map h2 hxmem hmem (by rw [hxg, hlatest]))
  | finishAbort b hmem hstale =>
    refine ⟨?_, ?_, h3, ?_, ?_, h6, ?_⟩ <;> dsimp only
    · intro x hx
      exact h1 x (List.mem_of_mem_erase hx)
    · exact ((List.erase_sublist b s.pending).map PendingBuild.gen).nodup h2
    · intro h
      obtain ⟨hp, ha⟩ := h4 h
      rw [hp]
      exact ⟨rfl, ha⟩
    · intro hc
      obtain ⟨bp, hreq, hcase⟩ := h5 hc
      refine ⟨bp, hreq, ?_⟩
      rcases hcase with hpend | hact
      · left
        have hne : (⟨s.counter, bp⟩ : PendingBuild) ≠ b := by
          intro he
          exact hstale (by rw [← he])
        exact (List.mem_erase_of_ne hne).mpr hpend
      · exact Or.inr hact
    · intro hact x hx
      exact h7 hact x (List.mem_of_mem_erase hx)

/-- Every reachable state of the build machinery satisfies the invariant. -/
theorem buildInv_reachable {s : BuildState} (h : BuildReachable s) : BuildInv s := by
  induction h with
  | base => exact buildInv_base
  | step _ hstep ih => exact buildInv_step ih hstep

/-- C2: the supersession check `if (this.n !== n) return` sits before
`unbuild()`, before mode/root/blueprint assignment and before activation, so an
in-flight build superseded during its asset fetches returns without touching
entity state (the `finishAbort` transition). Consequently, over every possible
interleaving of overlapping builds: each recorded activation happened at a
moment when the activating build's generation equalled the entity's current
counter — no superseded build's subtree is ever activated (first conjunct) —
and once no build is in flight, the active root is the one built by the
latest-started build, for the latest requested blueprint (second conjunct). -/
theorem c2_build_supersession (s : BuildState) (hs : BuildReachable s) :
    (∀ p ∈ s.commits, p.1 = p.2) ∧
    (s.pending = [] → 0 < s.counter →
      s.activeGen = some s.counter ∧ s.activeBp = s.requested) := by
  obtain ⟨h1, h2, h3, h4, h5, h6, h7⟩ := buildInv_reachable hs
  refine ⟨h3, ?_⟩
  intro hp hc
  obtain ⟨bp, hreq, hcase⟩ := h5 hc
  rcases hcase with hmem | ⟨hg, hb⟩
  · rw [hp] at hmem
    cases hmem
  · exact ⟨hg, by rw [hb, hreq]⟩

/-- Witness for `c2_build_supersession` on a concrete interleaving: a build for
blueprint 5 starts, a second build for blueprint 7 starts before the first
finishes its fetches, the first resumes and aborts at the supersession check,
the second resumes and commits. The final state has the generation-2 root for
blueprint 7 active. -/
theorem c2_build_supersession_witness :
    (⟨2, [], some 2, some 7, some 7, [(2, 2)]⟩ : BuildState).activeGen = some 2 ∧
    (⟨2, [], some 2, some 7, some 7, [(2, 2)]⟩ : BuildState).activeBp = some 7 := by
  have r1 : BuildReachable (⟨1, [⟨1, 5⟩], none, none, some 5, []⟩ : BuildState) :=
    BuildReachable.step BuildReachable.base (BuildStep.startBuild BuildState.start 5)
  have r2 : BuildReachable
      (⟨2, [⟨2, 7⟩, ⟨1, 5⟩], none, none, some 7, []⟩ : BuildState) :=
    BuildReachable.step r1 (BuildStep.startBuild _ 7)
  have r3 : BuildReachable (⟨2, [⟨2, 7⟩], none, none, some 7, []⟩ : BuildState) :=
    BuildReachable.step r2 (BuildStep.finishAbort _ ⟨1, 5⟩ (by decide) (by decide))
  have r4 : BuildReachable (⟨2, [], some 2, some 7, some 7, [(2, 2)]⟩ : BuildState) :=
    BuildReachable.step r3 (BuildStep.finishCommit _ ⟨2, 7⟩ (by decide) (by decide))
  have h := (c2_build_supersession _ r4).2 rfl (by norm_num)
  exact ⟨h.1, h.2⟩

end Hyperfy
